import Mathlib

/-!
Verification of the docling-server asynchronous document-conversion service.

This file gives a shallow embedding, in Lean 4, of the parts of the source
that the specification's claims are about:

* `app/utils.py` : the `chunk_text` splitter (greedy walk with sentence /
  word boundary preferences and overlap);
* `app/tasks.py` : the Celery task `process_document_task` (per-attempt
  execution, result records, webhook posting, retry policy) and
  `process_batch_task` (batch fan-out);
* `app/embeddings.py` : `EmbeddingGenerator.generate_embeddings`
  (blank-text filtering and positional re-alignment).

Python text is modelled as `List Char`, Python `str.rfind` as an
`Option Nat`-valued search, machine floats that appear in threshold
comparisons are modelled exactly (see `pyGtHalf`, `pyGt07`), and the
externally supplied collaborators (document converter, downloader,
embedding model) are parameters of the embedding.
-/

/-! ## Chunker: `app/utils.py`, `chunk_text` -/

/-- The sentence-terminator separators, in the order the Python source
iterates over them: `[". ", ".\n", "! ", "!\n", "? ", "?\n", "\n\n"]`. -/
def seps : List (List Char) :=
  [['.', ' '], ['.', '\n'], ['!', ' '], ['!', '\n'],
   ['?', ' '], ['?', '\n'], ['\n', '\n']]

/-- Python `w.rfind(sub)` for a non-empty `sub`: the greatest index `i`
such that `sub` occurs in `w` starting at `i`, or `none` (Python `-1`)
when there is no occurrence. -/
def rfindSub (w sub : List Char) : Option Nat :=
  ((List.range w.length).filterMap
    (fun i => if sub.isPrefixOf (w.drop i) then some i else none)).getLast?

/-- The Python slice `t[a:b]` for `0 ≤ a ≤ b`. -/
def pySlice (t : List Char) (a b : Nat) : List Char :=
  (t.drop a).take (b - a)

/-- Python whitespace characters stripped by `str.strip()` (ASCII range):
space, tab, newline, carriage return, vertical tab, form feed. -/
def isPySpace (c : Char) : Bool :=
  c = ' ' || c = '\t' || c = '\n' || c = '\r' ||
  c = Char.ofNat 11 || c = Char.ofNat 12

/-- Python `s.strip()`: drop whitespace from both ends. -/
def pyStrip (l : List Char) : List Char :=
  ((l.dropWhile isPySpace).reverse.dropWhile isPySpace).reverse

/-- The comparison `n > cs * 0.5` as Python evaluates it on an `int` `n`
and the double `cs * 0.5`.  For `cs < 2 ^ 53` the double `cs * 0.5` is
exact, and CPython compares `int` against `float` exactly, so the
comparison is exactly `2 * n > cs`. -/
def pyGtHalf (n cs : Nat) : Bool :=
  cs < 2 * n

/-- The IEEE-754 double nearest to `0.7`, scaled by `2 ^ 52`:
`fl(0.7) = 3152519739159347 / 2 ^ 52`. -/
def fl07num : Nat := 3152519739159347

/-- The IEEE-754 double `cs * 0.7` as Python computes it (for
`cs ≤ 2 ^ 53`, so that `float(cs)` is exact), returned scaled by
`2 ^ 52`: the exact product `cs * fl(0.7)` is rounded to 53 significant
bits with round-to-nearest, ties-to-even. -/
def roundCsTimes07 (cs : Nat) : Nat :=
  let p := cs * fl07num
  if p < 2 ^ 53 then p
  else
    let s := ((List.range 64).filter (fun k => 2 ^ 53 ≤ p / 2 ^ k)).length
    let q := p / 2 ^ s
    let r := p % 2 ^ s
    (if 2 ^ s < 2 * r || (2 * r = 2 ^ s && q % 2 = 1) then q + 1 else q) * 2 ^ s

/-- The comparison `n > cs * 0.7` as Python evaluates it on an `int` `n`
and the double `cs * 0.7` (exact emulation; CPython compares `int`
against `float` exactly).  Note this differs from the exact rational
comparison `10 * n > 7 * cs`: e.g. `63 > 90 * 0.7` is `True` in Python
because `90 * 0.7 = 62.99999999999999` as a double. -/
def pyGt07 (n cs : Nat) : Bool :=
  roundCsTimes07 cs < n * 2 ^ 52

/-- The `for sep in [...]: ... break` loop of `chunk_text`: try each
separator in order; on the first whose last occurrence `i` in the window
satisfies `i > chunk_size * 0.5`, return the in-window break offset
`i + len(sep)`; if no separator qualifies (the loop's `else` branch runs),
return `none`. -/
def findSepBreakAux (w : List Char) (cs : Nat) : List (List Char) → Option Nat
  | [] => none
  | sep :: rest =>
    match rfindSub w sep with
    | some i => if pyGtHalf i cs then some (i + sep.length) else findSepBreakAux w cs rest
    | none => findSepBreakAux w cs rest

/-- One iteration's final `end` value in `chunk_text`
(`app/utils.py` lines 185-199): the candidate end is
`min (start + chunk_size) (len text)`; when it is strictly before text
end, prefer a sentence-separator break (`findSepBreakAux`), otherwise a
space break when the last space `i` in the window satisfies
`i > chunk_size * 0.7`, otherwise keep the hard cut. -/
def computeEnd (t : List Char) (cs : Nat) (start : Nat) : Nat :=
  let e := min (start + cs) t.length
  if e < t.length then
    let w := pySlice t start e
    match findSepBreakAux w cs seps with
    | some off => start + off
    | none =>
      match rfindSub w [' '] with
      | some ls => if pyGt07 ls cs then start + ls + 1 else e
      | none => e
  else e

/-- The `while start < text_length` loop of `chunk_text`, with explicit
fuel (the Python loop has no a-priori bound and can in fact diverge; fuel
exhaustion is `none`).  Each iteration computes `end`, appends the
stripped span `(chunk, start, end)` when the strip is non-empty, and
advances to `end - chunk_overlap` (or terminates iteration when `end`
reached text length). -/
def chunkLoop (t : List Char) (cs ov : Nat) :
    Nat → Nat → Option (List (List Char × Nat × Nat))
  | 0, _ => none
  | fuel + 1, start =>
    if start < t.length then
      let e := computeEnd t cs start
      let c := pyStrip (pySlice t start e)
      let start' := if e < t.length then e - ov else t.length
      match chunkLoop t cs ov fuel start' with
      | none => none
      | some rest => some (if c ≠ [] then (c, start, e) :: rest else rest)
    else some []

/-- `chunk_text(text, chunk_size, chunk_overlap)` (`app/utils.py`
lines 166-208), with explicit fuel for the `while` loop. -/
def chunk_text (t : List Char) (cs ov fuel : Nat) :
    Option (List (List Char × Nat × Nat)) :=
  if t = [] then some [] else chunkLoop t cs ov fuel 0

example : rfindSub ['a', 'b', 'a', 'b'] ['a', 'b'] = some 2 := by decide
example : rfindSub ['a', 'b'] ['c'] = none := by decide
example : pyGt07 63 90 = true := by decide
example : pyGt07 63 91 = false := by decide
example : pyGt07 70 100 = false := by decide
example : pyGt07 71 100 = true := by decide
example : pyStrip [' ', 'a', ' '] = ['a'] := by decide

/-! ## Claim-side definitions for the chunk-boundary rule (C6) -/

/-- Modelled from the claim's wording, for comparison with `computeEnd`:
the last occurrence, over all sentence-terminator sequences, within the
window, as a pair (index, separator length). -/
def lastSepOccurrence (w : List Char) : Option (Nat × Nat) :=
  (seps.filterMap (fun sep => (rfindSub w sep).map (fun i => (i, sep.length)))).foldl
    (fun acc p =>
      match acc with
      | none => some p
      | some q => if q.1 < p.1 then some p else some q) none

/-- Modelled from the claim's wording (claim C6), for comparison with the
source's `computeEnd`: break at the last occurrence of any
sentence-terminator sequence if and only if it lies at or after the
midpoint `max_size * 0.5` (i.e. `2 * i ≥ cs`); otherwise at the last
space if it lies at or after 70% of the window (i.e. `10 * ls ≥ 7 * cs`);
otherwise at the hard cut. -/
def claimC6End (t : List Char) (cs start : Nat) : Nat :=
  let e := min (start + cs) t.length
  if e < t.length then
    let w := pySlice t start e
    let spaceBreak : Nat :=
      match rfindSub w [' '] with
      | some ls => if 7 * cs ≤ 10 * ls then start + ls + 1 else e
      | none => e
    match lastSepOccurrence w with
    | some (i, l) => if cs ≤ 2 * i then start + i + l else spaceBreak
    | none => spaceBreak
  else e

/-- The amended boundary rule, stated in spec style: the break is taken
at the FIRST separator, in the fixed priority order `seps`, whose last
occurrence `i` in the window lies STRICTLY after `chunk_size * 0.5`
(the break point being just after that separator occurrence); otherwise
at the last space when its index lies strictly after `chunk_size * 0.7`
as computed in double precision; otherwise at the hard cut. -/
def sepBreakSpec (w : List Char) (cs : Nat) : Option Nat :=
  (seps.filterMap (fun sep =>
    (rfindSub w sep).bind (fun i =>
      if cs < 2 * i then some (i + sep.length) else none))).head?

/-- The amended end-of-chunk rule (see `sepBreakSpec`). -/
def amendedEnd (t : List Char) (cs start : Nat) : Nat :=
  let e := min (start + cs) t.length
  if e < t.length then
    let w := pySlice t start e
    match sepBreakSpec w cs with
    | some off => start + off
    | none =>
      match rfindSub w [' '] with
      | some ls => if pyGt07 ls cs then start + ls + 1 else e
      | none => e
  else e

/-- Concrete text for the C6 counterexample: 50 `a`s, then `". "` (so the
last sentence-terminator occurrence in the first window `[0,100)` is at
index exactly 50, the midpoint of `max_size = 100`), then 150 `a`s. -/
def exC6 : List Char := List.replicate 50 'a' ++ ['.', ' '] ++ List.replicate 150 'a'

/-- Concrete text for the C5 failing input: 111 `a`s, then `". "` at
offsets 111-112, then 187 `a`s (length 300). -/
def exC5 : List Char := List.replicate 111 'a' ++ ['.', ' '] ++ List.replicate 187 'a'

/-- C7 hypothesis: in the window `[start, e)` of `t`, no sentence
separator's last occurrence qualifies (index strictly above
`cs * 0.5`), and no space qualifies (index strictly above `cs * 0.7`
in double arithmetic), so the hard cut is kept. -/
def noQualBreak (t : List Char) (cs start e : Nat) : Bool :=
  let w := pySlice t start e
  (seps.all (fun sep =>
    match rfindSub w sep with
    | none => true
    | some i => ! pyGtHalf i cs)) &&
  (match rfindSub w [' '] with
   | none => true
   | some i => ! pyGt07 i cs)

/-- When no separator in `l` qualifies, the Python `for`-loop falls
through to its `else` branch. -/
lemma findSepBreakAux_none (w : List Char) (cs : Nat) (l : List (List Char))
    (h : l.all (fun sep =>
      match rfindSub w sep with
      | none => true
      | some i => ! pyGtHalf i cs) = true) :
    findSepBreakAux w cs l = none := by
  induction l with
  | nil => rfl
  | cons sep rest ih =>
    simp only [List.all_cons, Bool.and_eq_true] at h
    obtain ⟨h1, h2⟩ := h
    simp only [findSepBreakAux]
    cases hr : rfindSub w sep with
    | none => exact ih h2
    | some i =>
      rw [hr] at h1
      simp only [Bool.not_eq_true'] at h1
      simp [h1, ih h2]

/-- Under `noQualBreak`, the candidate end is kept unchanged. -/
lemma computeEnd_of_noQualBreak (t : List Char) (cs start e : Nat)
    (hq : noQualBreak t cs start e = true)
    (he : min (start + cs) t.length = e) (hlt : e < t.length) :
    computeEnd t cs start = e := by
  unfold computeEnd
  rw [he]
  simp only [if_pos hlt]
  unfold noQualBreak at hq
  simp only [Bool.and_eq_true] at hq
  obtain ⟨hsep, hsp⟩ := hq
  rw [findSepBreakAux_none _ _ _ hsep]
  cases hr : rfindSub (pySlice t start e) [' '] with
  | none => rfl
  | some i =>
    rw [hr] at hsp
    simp only [Bool.not_eq_true'] at hsp
    simp [hsp]

/-! ## Settling the chunker claims (C5, C6, C7) -/

set_option maxRecDepth 40000

lemma exC5_ne_nil : exC5 ≠ [] := by decide

lemma exC5_length : exC5.length = 300 := by decide

lemma computeEnd_exC5_0 : computeEnd exC5 100 0 = 100 := by decide

lemma computeEnd_exC5_40 : computeEnd exC5 100 40 = 113 := by decide

lemma computeEnd_exC5_53 : computeEnd exC5 100 53 = 113 := by decide

/-- From start offset 53 the walk recomputes the same sentence break at
offset 113 forever: `start` never changes again. -/
lemma chunkLoop_exC5_53 : ∀ f, chunkLoop exC5 100 60 f 53 = none := by
  intro f
  induction f with
  | zero => rfl
  | succ f ih =>
    simp only [chunkLoop, computeEnd_exC5_53, exC5_length]
    norm_num
    rw [ih]

lemma chunkLoop_exC5_40 : ∀ f, chunkLoop exC5 100 60 f 40 = none := by
  intro f
  cases f with
  | zero => rfl
  | succ f =>
    simp only [chunkLoop, computeEnd_exC5_40, exC5_length]
    norm_num
    rw [chunkLoop_exC5_53 f]

/-- C5: the claim asserts that `overlap < max_size` is enough for the
walk of `chunk_text` to always advance and terminate.  It is not: on
`exC5` (111 `a`s, `". "`, 187 `a`s) with `chunk_size = 100` and
`chunk_overlap = 60 < 100`, the walk reaches `start = 53`, takes the
sentence break at `end = 113` (index 58 of the window, just past the
midpoint), and `end - overlap = 53` again: the Python loop re-runs the
identical iteration forever.  Formally, the loop does not terminate for
any amount of fuel. -/
theorem claimC5_infinite_loop :
    60 < 100 ∧ ∀ fuel, chunk_text exC5 100 60 fuel = none := by
  refine ⟨by norm_num, fun fuel => ?_⟩
  rw [chunk_text, if_neg exC5_ne_nil]
  cases fuel with
  | zero => rfl
  | succ f =>
    simp only [chunkLoop, computeEnd_exC5_0, exC5_length]
    norm_num
    rw [chunkLoop_exC5_40 f]

/-- C6 counterexample input: in the window `[0,100)` of `exC6` the last
(and only) sentence-terminator occurrence `". "` is at index 50 — exactly
the midpoint of `max_size = 100` — and the last space is at index 51.
The claim's rule accepts the terminator (at-or-after midpoint) and breaks
at `52`; the source requires strictly more than `50` and hard-cuts at
`100`. -/
theorem claimC6_counterexample :
    claimC6End exC6 100 0 = 52 ∧ computeEnd exC6 100 0 = 100 :=
  ⟨by decide, by decide⟩

/-- The Python `for`-loop with `break` is the first hit, in list order,
of the per-separator qualification test. -/
lemma findSepBreakAux_eq_head (w : List Char) (cs : Nat) (l : List (List Char)) :
    findSepBreakAux w cs l =
      (l.filterMap (fun sep =>
        (rfindSub w sep).bind (fun i =>
          if cs < 2 * i then some (i + sep.length) else none))).head? := by
  induction l with
  | nil => rfl
  | cons sep rest ih =>
    simp only [findSepBreakAux, List.filterMap_cons]
    cases hr : rfindSub w sep with
    | none => simpa using ih
    | some i =>
      by_cases h : cs < 2 * i
      · simp [pyGtHalf, h]
      · simp [pyGtHalf, h, ih]

/-- C6 (amended): whenever the candidate end is before text end, the
break point is the one computed by the amended rule: the FIRST separator
in the fixed priority order whose last occurrence lies STRICTLY after
`chunk_size * 0.5` wins (not the globally last occurrence, and not at the
exact midpoint); otherwise the last space, accepted only strictly above
the double-precision value of `chunk_size * 0.7`; otherwise the hard
`max_size` cut.  Stated as: the source's end computation coincides with
the amended rule on every input. -/
theorem claimC6_amended (t : List Char) (cs start : Nat) :
    computeEnd t cs start = amendedEnd t cs start := by
  simp only [computeEnd, amendedEnd, sepBreakSpec, findSepBreakAux_eq_head]

/-- One non-final iteration of the walk, with the computed end and a
non-empty stripped chunk. -/
lemma chunkLoop_step (t : List Char) (cs ov f start e : Nat)
    (hs : start < t.length) (he : computeEnd t cs start = e)
    (hlt : e < t.length) (hc : pyStrip (pySlice t start e) ≠ []) :
    chunkLoop t cs ov (f + 1) start =
      match chunkLoop t cs ov f (e - ov) with
      | none => none
      | some rest => some ((pyStrip (pySlice t start e), start, e) :: rest) := by
  simp only [chunkLoop, if_pos hs, he, if_pos hlt]
  cases chunkLoop t cs ov f (e - ov) with
  | none => rfl
  | some rest => simp [hc]

/-- The final iteration: the candidate end reached text length, so the
next start is the text length itself. -/
lemma chunkLoop_final_step (t : List Char) (cs ov f start e : Nat)
    (hs : start < t.length) (he : computeEnd t cs start = e)
    (hge : ¬ e < t.length) (hc : pyStrip (pySlice t start e) ≠ []) :
    chunkLoop t cs ov (f + 1) start =
      match chunkLoop t cs ov f t.length with
      | none => none
      | some rest => some ((pyStrip (pySlice t start e), start, e) :: rest) := by
  simp only [chunkLoop, if_pos hs, he, if_neg hge]
  cases chunkLoop t cs ov f t.length with
  | none => rfl
  | some rest => simp [hc]

/-- After the walk has advanced to the text length, it stops. -/
lemma chunkLoop_done (t : List Char) (cs ov f : Nat) :
    chunkLoop t cs ov (f + 1) t.length = some [] := by
  simp [chunkLoop]

/-- C7 (amended): with `chunk_size = 100`, `chunk_overlap = 20`, on any
250-character text whose windows `[0,100)` and `[80,180)` contain no
qualifying sentence-terminator or space break, AND whose three emitted
windows are non-empty after stripping (the claim omits this condition;
see the counterexample of an all-whitespace text), `chunk_text` returns
exactly the three chunks with start offsets `0, 80, 160`, the last one
ending at `250`. -/
theorem claimC7_amended (t : List Char) (hlen : t.length = 250)
    (hq1 : noQualBreak t 100 0 100 = true)
    (hq2 : noQualBreak t 100 80 180 = true)
    (hc1 : pyStrip (pySlice t 0 100) ≠ [])
    (hc2 : pyStrip (pySlice t 80 180) ≠ [])
    (hc3 : pyStrip (pySlice t 160 250) ≠ []) :
    chunk_text t 100 20 251 = some
      [(pyStrip (pySlice t 0 100), 0, 100),
       (pyStrip (pySlice t 80 180), 80, 180),
       (pyStrip (pySlice t 160 250), 160, 250)] := by
  have hne : t ≠ [] := by
    intro h
    rw [h] at hlen
    simp at hlen
  have he1 : computeEnd t 100 0 = 100 :=
    computeEnd_of_noQualBreak t 100 0 100 hq1 (by rw [hlen]; norm_num) (by rw [hlen]; norm_num)
  have he2 : computeEnd t 100 80 = 180 :=
    computeEnd_of_noQualBreak t 100 80 180 hq2 (by rw [hlen]; norm_num) (by rw [hlen]; norm_num)
  have he3 : computeEnd t 100 160 = 250 := by
    unfold computeEnd
    rw [hlen]
    norm_num
  have hc3' : pyStrip (pySlice t 160 250) ≠ [] := hc3
  rw [chunk_text, if_neg hne,
    show (251 : Nat) = 250 + 1 from rfl,
    chunkLoop_step t 100 20 250 0 100 (by rw [hlen]; norm_num) he1
      (by rw [hlen]; norm_num) hc1,
    show (250 : Nat) = 249 + 1 from rfl,
    show (100 - 20 : Nat) = 80 from rfl,
    chunkLoop_step t 100 20 249 80 180 (by rw [hlen]; norm_num) he2
      (by rw [hlen]; norm_num) hc2,
    show (249 : Nat) = 248 + 1 from rfl,
    show (180 - 20 : Nat) = 160 from rfl,
    chunkLoop_final_step t 100 20 248 160 250 (by rw [hlen]; norm_num) he3
      (by rw [hlen]; norm_num) hc3',
    show (248 : Nat) = 247 + 1 from rfl,
    chunkLoop_done t 100 20 247]

/-- C7 counterexample: 250 tab characters form a 250-character text with
no sentence-terminator and no space at all (hence none "near chunk
ends"), yet `chunk_text` returns 0 chunks, not 3: every window strips to
the empty string and is dropped. -/
theorem claimC7_counterexample :
    chunk_text (List.replicate 250 (Char.ofNat 9)) 100 20 251 = some [] := by
  decide

/-- Witness for C7 (amended) at the all-`a` text. -/
theorem claimC7_amended_witness :
    chunk_text (List.replicate 250 'a') 100 20 251 = some
      [(pyStrip (pySlice (List.replicate 250 'a') 0 100), 0, 100),
       (pyStrip (pySlice (List.replicate 250 'a') 80 180), 80, 180),
       (pyStrip (pySlice (List.replicate 250 'a') 160 250), 160, 250)] :=
  claimC7_amended (List.replicate 250 'a') (by decide) (by decide) (by decide)
    (by decide) (by decide) (by decide)

/-! ## Task execution: `app/tasks.py`, `process_document_task`

The Celery task is `@shared_task(bind=True, max_retries=3,
default_retry_delay=60)`.  One invocation ("attempt") parses options,
resolves the input (URL download / local file existence check), converts,
optionally embeds, and builds either the success record (lines 108-122)
or the failure record (lines 144-158); in both cases the webhook is
POSTed when a `webhook_url` is configured, and in the failure case the
webhook POST happens BEFORE the retry decision
(`if self.request.retries < self.max_retries: raise self.retry(...)`).
External collaborators (downloader, converter, embedder) and the clock
are parameters of the environment. -/

/-- `TaskStatus` (`app/models.py`). -/
inductive StatusV where
  | pending
  | processing
  | completed
  | failed
deriving DecidableEq, Inhabited

/-- The data produced by a successful `convert_document` call (the dict
returned by `app/transcribe.py`), abstracted: only the fields that
`process_document_task` reads. -/
structure SuccessData where
  document_type : Option String
  content : Option String
  chunks : Option (List String)
  tables : Option (List String)
  metadata : List (String × String)
  page_count : Option Nat
deriving Inhabited

/-- The result record built by `process_document_task` (both the
`final_result` and the `error_result` dicts), which is what Celery stores
and what both the polling endpoint (`GET tasks by id` in
`app/main.py`, a field-by-field passthrough) and the webhook POST carry.
Timestamps are abstract clock values. -/
structure ResultRecord where
  task_id : String
  status : StatusV
  filename : Option String
  document_type : Option String
  content : Option String
  chunks : Option (List String)
  tables : Option (List String)
  metadata : Option (List (String × String))
  page_count : Option Nat
  processing_time_ms : Option Nat
  error : Option String
  created_at : Nat
  completed_at : Nat
deriving Inhabited

/-- The environment of one `process_document_task` invocation: its
arguments plus the external collaborators, indexed by attempt number
where the outcome may differ between attempts. -/
structure TaskEnv where
  task_id : String
  url : Option String
  file_path : Option String
  filename : Option String
  fileExists : Bool
  optionsValid : Bool
  generate_embeddings : Bool
  webhook_url : Option String
  metadata : Option (List (String × String))
  download : Nat → Except String String
  convert : Nat → Except String SuccessData
  embed : List String → List String
  durMs : Nat → Nat
  now : Nat → Nat

/-- `max_retries=3` from the `@shared_task` decorator: the number of
RETRIES Celery allows after the initial attempt. -/
def maxRetries : Nat := 3

/-- The `try`-block body of `process_document_task` up to building the
result (lines 72-103): options parsing, input resolution (URL download,
or file-existence check raising `FileNotFoundError("File not found: ...")`,
or `ValueError` when neither input is given), then conversion.  Returns
the current `filename` value together with the outcome. -/
def attemptExec (env : TaskEnv) (attempt : Nat) :
    Option String × Except String SuccessData :=
  if env.optionsValid = false then
    (env.filename, .error "options validation error")
  else
    match env.url with
    | some _ =>
      match env.download attempt with
      | .error e => (env.filename, .error e)
      | .ok newFn =>
        match env.convert attempt with
        | .error e => (some newFn, .error e)
        | .ok d => (some newFn, .ok d)
    | none =>
      match env.file_path with
      | some p =>
        if env.fileExists then
          match env.convert attempt with
          | .error e => (env.filename, .error e)
          | .ok d => (env.filename, .ok d)
        else (env.filename, .error ("File not found: " ++ p))
      | none => (env.filename, .error "Either url or file_path must be provided")

/-- The `final_result` dict (lines 108-122): status `completed`, the
converted payload (chunks re-embedded when requested and non-empty),
merged metadata, and the measured `processing_time_ms`. -/
def mkFinalResult (env : TaskEnv) (fn : Option String) (d : SuccessData)
    (dur t : Nat) : ResultRecord :=
  { task_id := env.task_id
    status := .completed
    filename := fn
    document_type := some (d.document_type.getD "unknown")
    content := d.content
    chunks :=
      match d.chunks with
      | some cl => if env.generate_embeddings ∧ cl ≠ [] then some (env.embed cl) else some cl
      | none => none
    tables := some (d.tables.getD [])
    metadata := some (env.metadata.getD [] ++ d.metadata)
    page_count := d.page_count
    processing_time_ms := some dur
    error := none
    created_at := t
    completed_at := t }

/-- The `error_result` dict (lines 144-158): status `failed`, the error
message, the measured `processing_time_ms`, the submitted filename and
metadata passed through, and every conversion-output field `None`. -/
def mkErrorResult (env : TaskEnv) (fn : Option String) (e : String)
    (dur t : Nat) : ResultRecord :=
  { task_id := env.task_id
    status := .failed
    filename := fn
    document_type := none
    content := none
    chunks := none
    tables := none
    metadata := env.metadata
    page_count := none
    processing_time_ms := some dur
    error := some e
    created_at := t
    completed_at := t }

/-- What one attempt ends as: a returned success record, a Celery
`retry` (re-invocation scheduled), or a returned terminal failure
record. -/
inductive Outcome where
  | completed (r : ResultRecord)
  | retry (r : ResultRecord)
  | failedTerminal (r : ResultRecord)

/-- The record an attempt built (for `retry` this is the `error_result`
that was built and sent to the webhook before `self.retry` raised). -/
def recOf : Outcome → ResultRecord
  | .completed r => r
  | .retry r => r
  | .failedTerminal r => r

def isRetry : Outcome → Bool
  | .retry _ => true
  | _ => false

/-- One attempt of `process_document_task`, given the current Celery
retry counter `r` (`self.request.retries`, 0 on the first attempt):
the outcome together with the webhook POSTs this attempt performs.  On
success the webhook carries `final_result`; on ANY exception the webhook
carries `error_result` and is sent before the
`if self.request.retries < self.max_retries: raise self.retry(exc=e)`
check (lines 166-178), which retries EVERY exception class alike. -/
def runAttempt (env : TaskEnv) (r : Nat) : Outcome × List ResultRecord :=
  match attemptExec env r with
  | (fn, .ok d) =>
    let res := mkFinalResult env fn d (env.durMs r) (env.now r)
    (.completed res, if env.webhook_url.isSome then [res] else [])
  | (fn, .error e) =>
    let res := mkErrorResult env fn e (env.durMs r) (env.now r)
    ((if r < maxRetries then .retry res else .failedTerminal res),
     if env.webhook_url.isSome then [res] else [])

/-- The full task life, driven by the queue's retry re-invocation: run
attempts with retry counters `r, r+1, ...` until an attempt does not ask
for a retry.  Returns (number of attempts run, all webhook POSTs in
order, the terminal record).  Fuel is structural; `maxRetries + 1` is
enough from `r = 0` because an attempt with `r ≥ maxRetries` never asks
for a retry. -/
def runFrom (env : TaskEnv) : Nat → Nat → Nat × List ResultRecord × Option ResultRecord
  | 0, _ => (0, [], none)
  | fuel + 1, r =>
    match runAttempt env r with
    | (.completed res, whs) => (1, whs, some res)
    | (.failedTerminal res, whs) => (1, whs, some res)
    | (.retry _, whs) =>
      let rest := runFrom env fuel (r + 1)
      (rest.1 + 1, whs ++ rest.2.1, rest.2.2)

/-- A task's complete processing, starting at retry counter 0. -/
def runTask (env : TaskEnv) : Nat × List ResultRecord × Option ResultRecord :=
  runFrom env (maxRetries + 1) 0

/-- Number of attempts actually executed. -/
def numAttempts (env : TaskEnv) : Nat := (runTask env).1

/-- All webhook POSTs performed over the task's life, in order. -/
def webhooksSent (env : TaskEnv) : List ResultRecord := (runTask env).2.1

/-- The terminal record (returned value of the last attempt). -/
def terminalRecord (env : TaskEnv) : Option ResultRecord := (runTask env).2.2

/-- Decides whether attempt `n` of the task raises (any exception). -/
def attemptFails (env : TaskEnv) (n : Nat) : Bool :=
  match (attemptExec env n).2 with
  | .error _ => true
  | .ok _ => false

/-- The error message of a failing attempt (`""` for a success). -/
def errOf : Except String SuccessData → String
  | .error e => e
  | .ok _ => ""

/-- A concrete environment whose conversion raises on every attempt
(a retryable `ConversionError` in the spec's taxonomy). -/
def exEnvAlwaysFail : TaskEnv :=
  { task_id := "t-1"
    url := some "http://example.com/doc.pdf"
    file_path := none
    filename := none
    fileExists := false
    optionsValid := true
    generate_embeddings := false
    webhook_url := none
    metadata := none
    download := fun _ => .ok "doc.pdf"
    convert := fun _ => .error "conversion failed"
    embed := id
    durMs := fun _ => 5
    now := fun n => n }

/-- A concrete environment whose input file path does not exist. -/
def exEnvMissingFile : TaskEnv :=
  { task_id := "t-2"
    url := none
    file_path := some "/tmp/gone.pdf"
    filename := some "gone.pdf"
    fileExists := false
    optionsValid := true
    generate_embeddings := false
    webhook_url := none
    metadata := none
    download := fun _ => .ok "x"
    convert := fun _ => .ok default
    embed := id
    durMs := fun _ => 5
    now := fun n => n }

/-- `exEnvAlwaysFail` with a webhook URL configured. -/
def exEnvWebhook : TaskEnv :=
  { exEnvAlwaysFail with task_id := "t-3", webhook_url := some "http://hook.example/cb" }

/-- A failing attempt builds `error_result`, webhooks it, and then asks
for a retry exactly when `retries < max_retries`. -/
lemma runAttempt_fail (env : TaskEnv) (n : Nat) (h : attemptFails env n = true) :
    runAttempt env n =
      (let res := mkErrorResult env (attemptExec env n).1 (errOf (attemptExec env n).2)
        (env.durMs n) (env.now n)
       ((if n < maxRetries then .retry res else .failedTerminal res),
        if env.webhook_url.isSome then [res] else [])) := by
  unfold attemptFails at h
  unfold runAttempt errOf
  rcases hx : attemptExec env n with ⟨fn, ex⟩
  rw [hx] at h
  cases ex with
  | ok d => simp at h
  | error e => simp

/-- C1 counterexample: a task whose conversion raises a retryable error
on every attempt runs 4 attempts (the initial one plus
`max_retries = 3` Celery retries), not 3 as the claim states. -/
theorem claimC1_counterexample :
    numAttempts exEnvAlwaysFail = 4 ∧ numAttempts exEnvAlwaysFail ≠ 3 :=
  ⟨rfl, by decide⟩

/-- C1 (amended): a task whose every attempt raises transitions to the
terminal failure exactly after `max_retries + 1 = 4` attempts, never
more: the counter sequence is 0,1,2,3, and an attempt whose retry
counter has reached `max_retries` never asks for a retry. -/
theorem claimC1_amended (env : TaskEnv) (r : Nat)
    (h : ∀ n, attemptFails env n = true) (hr : maxRetries ≤ r) :
    numAttempts env = 4 ∧
    (terminalRecord env).map ResultRecord.status = some .failed ∧
    isRetry (runAttempt env r).1 = false := by
  have h0 := runAttempt_fail env 0 (h 0)
  have h1 := runAttempt_fail env 1 (h 1)
  have h2 := runAttempt_fail env 2 (h 2)
  have h3 := runAttempt_fail env 3 (h 3)
  refine ⟨?_, ?_, ?_⟩
  · simp only [numAttempts, runTask, maxRetries, runFrom, h0, h1, h2, h3]
    norm_num
  · simp only [terminalRecord, runTask, maxRetries, runFrom, h0, h1, h2, h3]
    norm_num [mkErrorResult]
  · rw [runAttempt_fail env r (h r)]
    simp [isRetry, Nat.not_lt.mpr hr]

/-- Witness for C1 (amended) at the concrete always-failing task. -/
theorem claimC1_amended_witness :
    numAttempts exEnvAlwaysFail = 4 ∧
    (terminalRecord exEnvAlwaysFail).map ResultRecord.status = some .failed ∧
    isRetry (runAttempt exEnvAlwaysFail 3).1 = false :=
  claimC1_amended exEnvAlwaysFail 3 (fun _ => rfl) (by norm_num [maxRetries])

/-- C2 counterexample: on a task whose input file does not exist, the
very first attempt asks for a retry (the `FileNotFoundError` is caught
by the indiscriminate `except Exception` handler and re-raised through
`self.retry`), and the task runs 4 attempts in total — not a single
attempt with no retry as the claim states. -/
theorem claimC2_counterexample :
    isRetry (runAttempt exEnvMissingFile 0).1 = true ∧
    numAttempts exEnvMissingFile = 4 :=
  ⟨rfl, rfl⟩

/-- On a missing input file every attempt fails with the
`FileNotFoundError` message. -/
lemma attemptExec_missing_file (env : TaskEnv) (p : String)
    (hurl : env.url = none) (hfp : env.file_path = some p)
    (hex : env.fileExists = false) (hopt : env.optionsValid = true) (n : Nat) :
    attemptExec env n = (env.filename, .error ("File not found: " ++ p)) := by
  unfold attemptExec
  rw [hurl, hfp, hex, hopt]
  simp

/-- C2 (amended): a task with a missing input file is retried like any
other failure: it reaches the terminal failure only after
`max_retries + 1 = 4` attempts, and its terminal record carries the
`FileNotFoundError` message. -/
theorem claimC2_amended (env : TaskEnv) (p : String)
    (hurl : env.url = none) (hfp : env.file_path = some p)
    (hex : env.fileExists = false) (hopt : env.optionsValid = true) :
    numAttempts env = 4 ∧
    (terminalRecord env).map ResultRecord.status = some .failed ∧
    (terminalRecord env).bind ResultRecord.error =
      some ("File not found: " ++ p) := by
  have hx := attemptExec_missing_file env p hurl hfp hex hopt
  have hf : ∀ n, attemptFails env n = true := by
    intro n
    unfold attemptFails
    rw [hx n]
  have h0 := runAttempt_fail env 0 (hf 0)
  have h1 := runAttempt_fail env 1 (hf 1)
  have h2 := runAttempt_fail env 2 (hf 2)
  have h3 := runAttempt_fail env 3 (hf 3)
  refine ⟨?_, ?_, ?_⟩
  · simp only [numAttempts, runTask, maxRetries, runFrom, h0, h1, h2, h3]
    norm_num
  · simp only [terminalRecord, runTask, maxRetries, runFrom, h0, h1, h2, h3]
    norm_num [mkErrorResult]
  · simp only [terminalRecord, runTask, maxRetries, runFrom, h0, h1, h2, h3]
    norm_num [mkErrorResult, hx 3, errOf]

/-- Witness for C2 (amended) at the concrete missing-file task. -/
theorem claimC2_amended_witness :
    numAttempts exEnvMissingFile = 4 ∧
    (terminalRecord exEnvMissingFile).map ResultRecord.status = some .failed ∧
    (terminalRecord exEnvMissingFile).bind ResultRecord.error =
      some ("File not found: " ++ "/tmp/gone.pdf") :=
  claimC2_amended exEnvMissingFile "/tmp/gone.pdf" rfl rfl rfl rfl

/-- Every attempt's webhook list is exactly one POST of the record the
attempt built, when a webhook URL is configured (else empty). -/
lemma runAttempt_webhooks (env : TaskEnv) (r : Nat) :
    (runAttempt env r).2 =
      if env.webhook_url.isSome then [recOf (runAttempt env r).1] else [] := by
  unfold runAttempt recOf
  rcases attemptExec env r with ⟨fn, ex⟩
  cases ex with
  | ok d => simp
  | error e =>
    by_cases hr : r < maxRetries <;> simp [hr]

/-- With a webhook URL configured, the number of POSTs equals the number
of attempts executed. -/
lemma runFrom_webhook_count (env : TaskEnv) (hw : env.webhook_url.isSome = true) :
    ∀ fuel r, ((runFrom env fuel r).2.1).length = (runFrom env fuel r).1 := by
  intro fuel
  induction fuel with
  | zero => intro r; rfl
  | succ f ih =>
    intro r
    have hws := runAttempt_webhooks env r
    rw [hw] at hws
    simp only [if_true] at hws
    unfold runFrom
    rcases hA : runAttempt env r with ⟨oc, whs⟩
    have hlen : whs.length = 1 := by
      rw [hA] at hws
      simp only at hws
      rw [hws]
      rfl
    cases oc with
    | completed res => simpa using hlen
    | failedTerminal res => simpa using hlen
    | retry res =>
      simp only [List.length_append, hlen, ih]
      omega

/-- C3 counterexample: with a webhook URL configured and a first attempt
that fails retryably, the webhook is POSTed at that very attempt (which
is then retried — a non-terminal transition), and over the whole life of
the always-failing task 4 webhooks are POSTed, not one. -/
theorem claimC3_counterexample :
    isRetry (runAttempt exEnvWebhook 0).1 = true ∧
    (runAttempt exEnvWebhook 0).2.length = 1 ∧
    (webhooksSent exEnvWebhook).length = 4 :=
  ⟨rfl, rfl, rfl⟩

/-- C3 (amended): the webhook payload is POSTed once per ATTEMPT, at the
attempt's completion (the success record on success, the failure record
on each failed attempt — sent before any retry is scheduled), so the
total number of POSTs equals the number of attempts executed, not one at
the terminal transition. -/
theorem claimC3_amended (env : TaskEnv) (r : Nat)
    (hw : env.webhook_url.isSome = true) :
    (webhooksSent env).length = numAttempts env ∧
    (runAttempt env r).2 = [recOf (runAttempt env r).1] := by
  refine ⟨runFrom_webhook_count env hw (maxRetries + 1) 0, ?_⟩
  rw [runAttempt_webhooks env r, hw]
  simp

/-- Witness for C3 (amended) at the concrete webhook-configured task. -/
theorem claimC3_amended_witness :
    (webhooksSent exEnvWebhook).length = numAttempts exEnvWebhook ∧
    (runAttempt exEnvWebhook 0).2 = [recOf (runAttempt exEnvWebhook 0).1] :=
  claimC3_amended exEnvWebhook 0 rfl

/-- Any terminal record with status `failed` is an `error_result`: it
carries an error message and `None` in every conversion-output field. -/
lemma runFrom_terminal_failed (env : TaskEnv) :
    ∀ fuel r t, (runFrom env fuel r).2.2 = some t → t.status = .failed →
      t.error.isSome = true ∧ t.document_type = none ∧ t.content = none ∧
      t.chunks = none ∧ t.tables = none ∧ t.page_count = none := by
  intro fuel
  induction fuel with
  | zero => intro r t h; simp [runFrom] at h
  | succ f ih =>
    intro r t h hst
    unfold runFrom runAttempt at h
    rcases hx : attemptExec env r with ⟨fn, ex⟩
    rw [hx] at h
    cases ex with
    | ok d =>
      simp only [Option.some.injEq] at h
      rw [← h] at hst
      simp [mkFinalResult] at hst
    | error e =>
      by_cases hr : r < maxRetries
      · simp only [if_pos hr] at h
        exact ih (r + 1) t h hst
      · simp only [if_neg hr, Option.some.injEq] at h
        rw [← h]
        simp [mkErrorResult]

/-- C4: the terminal record of every failed task — the record Celery
stores and the polling endpoint returns field-by-field — has
`status = failed`, an error message string, and `None` in every
conversion-output field (`document_type`, `content`, `chunks`, `tables`,
`page_count`).  (The submitted `filename`/`metadata` are passed through,
and `processing_time_ms` is populated — see C9 — so "all other result
fields" is read as the conversion-output fields.) -/
theorem claimC4_failed_record (env : TaskEnv) (t : ResultRecord)
    (h : terminalRecord env = some t) (hst : t.status = .failed) :
    t.error.isSome = true ∧ t.document_type = none ∧ t.content = none ∧
    t.chunks = none ∧ t.tables = none ∧ t.page_count = none :=
  runFrom_terminal_failed env (maxRetries + 1) 0 t h hst

/-- The concrete terminal record of the missing-file task. -/
def c4rec : ResultRecord := (terminalRecord exEnvMissingFile).getD default

/-- Witness for C4 at the concrete missing-file task. -/
theorem claimC4_failed_record_witness :
    c4rec.error.isSome = true ∧ c4rec.document_type = none ∧
    c4rec.content = none ∧ c4rec.chunks = none ∧ c4rec.tables = none ∧
    c4rec.page_count = none :=
  claimC4_failed_record exEnvMissingFile c4rec rfl rfl

/-- C9: every attempt's result record — whether the attempt succeeded
(`final_result`, line 118) or failed (`error_result`, line 154) —
carries the measured wall-clock duration of that attempt in
`processing_time_ms`. -/
theorem claimC9_duration (env : TaskEnv) (r : Nat) :
    (recOf (runAttempt env r).1).processing_time_ms = some (env.durMs r) := by
  unfold runAttempt recOf
  rcases attemptExec env r with ⟨fn, ex⟩
  cases ex with
  | ok d => simp [mkFinalResult]
  | error e =>
    by_cases hr : r < maxRetries <;> simp [hr, mkErrorResult]

/-! ## Batch fan-out: `app/main.py` `convert_documents_batch` and
`app/tasks.py` `process_batch_task` -/

/-- One member-task configuration dict, as built by the batch endpoint
(`task_id`, `url`, `options`; `config.get` of an absent key is `None`). -/
structure BatchConfig where
  task_id : Option String
  url : Option String
  options : Option (List (String × String))
  metadata : Option (List (String × String))

/-- The keyword arguments of one `process_document_task.delay(...)` call
queued by `process_batch_task` (lines 215-221). -/
structure QueuedDocTask where
  task_id : Option String
  url : Option String
  options_dict : Option (List (String × String))
  webhook_url : Option String
  metadata : Option (List (String × String))

/-- `process_batch_task(batch_id, task_configs, webhook_url)`
(`app/tasks.py` lines 188-239): queues one `process_document_task` per
config with `webhook_url=None` (the source comment reads: do not send
individual webhooks), collecting an error entry instead when `.delay`
raises (`queueOk` models that).  Returns (the queued member-task calls,
the webhook POSTs performed by the batch task itself).  The body
contains no `_send_webhook` call and never reads its `webhook_url`
parameter, so the POST list is empty. -/
def process_batch_task (batch_id : String) (task_configs : List BatchConfig)
    (webhook_url : Option String) (queueOk : Nat → Bool) :
    List QueuedDocTask × List ResultRecord :=
  let queued := task_configs.enum.filterMap (fun p =>
    if queueOk p.1 then
      some { task_id := p.2.task_id
             url := p.2.url
             options_dict := p.2.options
             webhook_url := none
             metadata := p.2.metadata : QueuedDocTask }
    else none)
  (queued, [])

/-- `convert_documents_batch` (`app/main.py` lines 424-469): builds one
config per URL (fresh task id, the url, the shared options snapshot; no
metadata key) and hands the list to `process_batch_task` together with
the request's `webhook_url`. -/
def convert_documents_batch (batch_id : String) (urls : List String)
    (options : Option (List (String × String))) (webhook_url : Option String)
    (genId : Nat → String) (queueOk : Nat → Bool) :
    List QueuedDocTask × List ResultRecord :=
  let task_configs := urls.enum.map (fun p =>
    { task_id := some (genId p.1)
      url := some p.2
      options := options
      metadata := none : BatchConfig })
  process_batch_task batch_id task_configs webhook_url queueOk

/-- C10: the batch-level `webhook_url` is accepted but never used —
every member task is queued with `webhook_url=None`, `process_batch_task`
performs no webhook POST of its own, and the whole batch pipeline's
output is completely independent of the supplied `webhook_url`. -/
theorem claimC10_batch_webhook_unused (batch_id : String)
    (task_configs : List BatchConfig) (urls : List String)
    (options : Option (List (String × String))) (w : Option String)
    (genId : Nat → String) (queueOk : Nat → Bool) :
    ((process_batch_task batch_id task_configs w queueOk).1.all
      (fun q => q.webhook_url.isNone)) = true ∧
    (process_batch_task batch_id task_configs w queueOk).2 = [] ∧
    process_batch_task batch_id task_configs w queueOk =
      process_batch_task batch_id task_configs none queueOk ∧
    convert_documents_batch batch_id urls options w genId queueOk =
      convert_documents_batch batch_id urls options none genId queueOk := by
  refine ⟨?_, rfl, rfl, rfl⟩
  simp only [process_batch_task, List.all_eq_true]
  intro q hq
  obtain ⟨p, hmem, hq'⟩ := List.mem_filterMap.1 hq
  by_cases hik : queueOk p.1
  · rw [if_pos hik] at hq'
    cases hq'
    rfl
  · rw [if_neg hik] at hq'
    cases hq'

/-! ## Embeddings: `app/embeddings.py`,
`EmbeddingGenerator.generate_embeddings` (lines 67-111)

The embedding model is a parameter `encode` (the batched
`self.model.encode(valid_texts)` call); `dim` is the model's native
dimensionality (`self.embedding_dimension`).  Vector entries are modelled
as rationals. -/

/-- Python truthiness of `text.strip()` negated: `True` when the text is
empty or whitespace-only. -/
def isBlank (t : List Char) : Bool :=
  pyStrip t = []

/-- The zero vector `[0.0] * dim`. -/
def zeroVec (dim : Nat) : List ℚ := List.replicate dim 0

/-- The `for i, text in enumerate(texts): if text.strip(): ...` loop:
the (index, text) pairs of the non-blank entries, in order. -/
def validPairs (texts : List (List Char)) : List (Nat × List Char) :=
  texts.enum.filter (fun p => ! isBlank p.2)

/-- `valid_indices`. -/
def validIndices (texts : List (List Char)) : List Nat :=
  (validPairs texts).map Prod.fst

/-- `valid_texts`. -/
def validTexts (texts : List (List Char)) : List (List Char) :=
  (validPairs texts).map Prod.snd

/-- The reconstruction loop
`for i in range(len(texts)): if i in valid_indices:
result.append(embeddings_list[valid_idx]); valid_idx += 1
else: result.append(zero_embedding)`, with `none` modelling an
out-of-range `embeddings_list[valid_idx]` (Python `IndexError`). -/
def reconAux (validIdx : List Nat) (emb : List (List ℚ)) (zero : List ℚ) :
    Nat → Nat → Nat → Option (List (List ℚ))
  | 0, _, _ => some []
  | k + 1, i, vidx =>
    if i ∈ validIdx then
      match emb[vidx]? with
      | none => none
      | some v =>
        match reconAux validIdx emb zero k (i + 1) (vidx + 1) with
        | none => none
        | some rest => some (v :: rest)
    else
      match reconAux validIdx emb zero k (i + 1) vidx with
      | none => none
      | some rest => some (zero :: rest)

/-- `generate_embeddings(texts)`: empty input short-circuits; blank
texts are excluded from the single batched model call; the result is
re-aligned positionally, with `zero_embedding` at the blank positions. -/
def generate_embeddings (encode : List (List Char) → List (List ℚ))
    (dim : Nat) (texts : List (List Char)) : Option (List (List ℚ)) :=
  if texts = [] then some []
  else
    let embeddings_list :=
      if validTexts texts ≠ [] then encode (validTexts texts) else []
    reconAux (validIndices texts) embeddings_list (zeroVec dim)
      texts.length 0 0

/-- The claim's description of the result, written independently of the
index bookkeeping: walk the texts in order, emit the zero vector for a
blank text, and otherwise consume the next model output. -/
def assignEmb (zero : List ℚ) : List (List Char) → List (List ℚ) → List (List ℚ)
  | [], _ => []
  | t :: ts, es =>
    if isBlank t then zero :: assignEmb zero ts es
    else
      match es with
      | [] => []
      | e :: es' => e :: assignEmb zero ts es'

lemma validTexts_eq (texts : List (List Char)) :
    validTexts texts = texts.filter (fun t => ! isBlank t) := by
  have h := List.filter_map (f := (Prod.snd : Nat × List Char → List Char))
    (p := fun t => ! isBlank t) (l := texts.enum)
  rw [List.enum_map_snd] at h
  rw [validTexts, validPairs, h]
  rfl

lemma mem_validIndices (texts : List (List Char)) (i : Nat) :
    i ∈ validIndices texts ↔ ∃ t, texts[i]? = some t ∧ isBlank t = false := by
  simp only [validIndices, validPairs, List.mem_map, List.mem_filter]
  constructor
  · rintro ⟨⟨j, t⟩, ⟨hmem, hpred⟩, rfl⟩
    exact ⟨t, List.mk_mem_enum_iff_getElem?.1 hmem, by simpa using hpred⟩
  · rintro ⟨t, hget, hbl⟩
    exact ⟨(i, t), ⟨List.mk_mem_enum_iff_getElem?.2 hget, by simp [hbl]⟩, rfl⟩

/-- Correctness of the reconstruction loop: starting at position `i`
with `valid_idx` equal to the number of non-blank texts before `i`, and
enough model outputs for the remaining non-blank texts, the loop
produces exactly the order-preserving assignment. -/
lemma reconAux_spec (texts : List (List Char)) (emb : List (List ℚ))
    (zero : List ℚ) :
    ∀ (suf : List (List Char)) (i vidx : Nat),
      texts.drop i = suf →
      vidx = ((texts.take i).filter (fun t => ! isBlank t)).length →
      vidx + (suf.filter (fun t => ! isBlank t)).length ≤ emb.length →
      reconAux (validIndices texts) emb zero suf.length i vidx =
        some (assignEmb zero suf (emb.drop vidx)) := by
  intro suf
  induction suf with
  | nil => intro i vidx _ _ _; simp [reconAux, assignEmb]
  | cons t suf' ih =>
    intro i vidx hdrop hv hb
    have hget : texts[i]? = some t := by
      have h0 : (texts.drop i)[0]? = some t := by rw [hdrop]; simp
      rw [List.getElem?_drop] at h0
      simpa using h0
    have hdrop' : texts.drop (i + 1) = suf' := by
      have h1 := congrArg (List.drop 1) hdrop
      rw [List.drop_drop] at h1
      simpa using h1
    have htake : texts.take (i + 1) = texts.take i ++ [t] := by
      rw [List.take_succ, hget]
      rfl
    by_cases hbl : isBlank t
    · have hnotmem : i ∉ validIndices texts := by
        rw [mem_validIndices]
        rintro ⟨t', hget', hbl'⟩
        rw [hget] at hget'
        cases hget'
        rw [hbl] at hbl'
        cases hbl'
      have hv' : vidx = ((texts.take (i + 1)).filter (fun t => ! isBlank t)).length := by
        rw [htake, List.filter_append]
        simp [hbl, hv]
      have hb' : vidx + (suf'.filter (fun t => ! isBlank t)).length ≤ emb.length := by
        have : (t :: suf').filter (fun t => ! isBlank t) =
            suf'.filter (fun t => ! isBlank t) := by simp [hbl]
        rw [this] at hb
        exact hb
      simp only [List.length_cons, reconAux, if_neg hnotmem,
        ih (i + 1) vidx hdrop' hv' hb']
      simp [assignEmb, hbl]
    · have hblf : isBlank t = false := by simpa using hbl
      have hmem : i ∈ validIndices texts :=
        (mem_validIndices texts i).2 ⟨t, hget, hblf⟩
      have hfcons : (t :: suf').filter (fun t => ! isBlank t) =
          t :: suf'.filter (fun t => ! isBlank t) := by simp [hblf]
      have hvlt : vidx < emb.length := by
        rw [hfcons] at hb
        simp only [List.length_cons] at hb
        omega
      have hgetv : emb[vidx]? = some emb[vidx] := List.getElem?_eq_getElem hvlt
      have hv' : vidx + 1 = ((texts.take (i + 1)).filter (fun t => ! isBlank t)).length := by
        rw [htake, List.filter_append]
        simp [hblf, hv]
      have hb' : (vidx + 1) + (suf'.filter (fun t => ! isBlank t)).length ≤ emb.length := by
        rw [hfcons] at hb
        simp only [List.length_cons] at hb
        omega
      have hdropemb : emb.drop vidx = emb[vidx] :: emb.drop (vidx + 1) :=
        List.drop_eq_getElem_cons hvlt
      have hih := ih (i + 1) (vidx + 1) hdrop' hv' hb'
      simp only [List.length_cons, reconAux, if_pos hmem, hgetv, hih]
      rw [hdropemb]
      simp [assignEmb, hblf]

/-- The order-preserving assignment emits one vector per text whenever
the model outputs cover all non-blank texts. -/
lemma assignEmb_length (zero : List ℚ) :
    ∀ (ts : List (List Char)) (es : List (List ℚ)),
      (ts.filter (fun t => ! isBlank t)).length ≤ es.length →
      (assignEmb zero ts es).length = ts.length := by
  intro ts
  induction ts with
  | nil => intro es _; rfl
  | cons t ts' ih =>
    intro es hb
    by_cases hbl : isBlank t
    · have hx : (t :: ts').filter (fun t => ! isBlank t) =
          ts'.filter (fun t => ! isBlank t) := by simp [hbl]
      rw [hx] at hb
      simp [assignEmb, hbl, ih es hb]
    · have hblf : isBlank t = false := by simpa using hbl
      have hx : (t :: ts').filter (fun t => ! isBlank t) =
          t :: ts'.filter (fun t => ! isBlank t) := by simp [hblf]
      rw [hx] at hb
      simp only [List.length_cons] at hb
      cases es with
      | nil => simp at hb
      | cons e es' =>
        simp only [List.length_cons] at hb
        have : (ts'.filter (fun t => ! isBlank t)).length ≤ es'.length := by omega
        simp [assignEmb, hblf, ih es' this]

/-- The text `"hello"`. -/
def exHello : List Char := ['h', 'e', 'l', 'l', 'o']

/-- The claim's concrete input `["", "hello", "  "]`. -/
def exTriple : List (List Char) := [[], exHello, [' ', ' ']]

/-- C8: `generate_embeddings` returns exactly one vector per input text,
in the original order: blank (empty or whitespace-only) texts are
excluded from the single model call and assigned the zero vector of the
model's dimensionality, and the non-blank texts receive the model's
outputs in order (the result is the order-preserving assignment
`assignEmb` over `encode` applied to exactly the non-blank texts).  In
particular, on `["", "hello", "  "]` the result has length 3 with the
zero vector at indices 0 and 2 and the model's output for `"hello"` at
index 1. -/
theorem claimC8_embedding_alignment
    (encode : List (List Char) → List (List ℚ)) (dim : Nat)
    (texts : List (List Char))
    (hlen : ∀ ts, (encode ts).length = ts.length) :
    generate_embeddings encode dim texts =
      some (assignEmb (zeroVec dim) texts
        (encode (texts.filter (fun t => ! isBlank t)))) ∧
    (assignEmb (zeroVec dim) texts
      (encode (texts.filter (fun t => ! isBlank t)))).length = texts.length ∧
    generate_embeddings encode dim exTriple =
      some [zeroVec dim, (encode [exHello]).getD 0 (zeroVec dim), zeroVec dim] := by
  have main : ∀ ts : List (List Char),
      generate_embeddings encode dim ts =
        some (assignEmb (zeroVec dim) ts
          (encode (ts.filter (fun t => ! isBlank t)))) := by
    intro ts
    unfold generate_embeddings
    by_cases hT : ts = []
    · subst hT
      simp [assignEmb]
    · rw [if_neg hT]
      have hvt := validTexts_eq ts
      have hEL : (if validTexts ts ≠ [] then encode (validTexts ts) else []) =
          encode (ts.filter (fun t => ! isBlank t)) := by
        by_cases hv : validTexts ts = []
        · rw [← hvt]
          simp only [hv, ne_eq, not_true_eq_false, if_false]
          have h0 : (encode ([] : List (List Char))).length = 0 := by
            rw [hlen]
            rfl
          rw [List.length_eq_zero] at h0
          exact h0.symm
        · rw [if_pos hv, hvt]
      rw [hEL]
      have hspec := reconAux_spec ts
        (encode (ts.filter (fun t => ! isBlank t))) (zeroVec dim) ts 0 0
        rfl rfl (by rw [hlen]; omega)
      simpa using hspec
  refine ⟨main texts, ?_, ?_⟩
  · exact assignEmb_length (zeroVec dim) texts _ (by rw [hlen])
  · rw [main exTriple]
    have hfil : exTriple.filter (fun t => ! isBlank t) = [exHello] := by decide
    rw [hfil]
    obtain ⟨e, he⟩ := List.length_eq_one.mp (hlen [exHello])
    rw [he]
    rfl

/-- A concrete embedding model: every text maps to `[1, 2]`. -/
def encC8 : List (List Char) → List (List ℚ) :=
  fun ts => ts.map (fun _ => [1, 2])

/-- Witness for C8 at a concrete model and the concrete input
`["a", "", "b\t"]`. -/
theorem claimC8_embedding_alignment_witness :
    generate_embeddings encC8 2 [['a'], [], ['b', '\t']] =
      some (assignEmb (zeroVec 2) [['a'], [], ['b', '\t']]
        (encC8 ([['a'], [], ['b', '\t']].filter (fun t => ! isBlank t)))) ∧
    (assignEmb (zeroVec 2) [['a'], [], ['b', '\t']]
      (encC8 ([['a'], [], ['b', '\t']].filter (fun t => ! isBlank t)))).length =
      [['a'], [], ['b', '\t']].length ∧
    generate_embeddings encC8 2 exTriple =
      some [zeroVec 2, (encC8 [exHello]).getD 0 (zeroVec 2), zeroVec 2] :=
  claimC8_embedding_alignment encC8 2 [['a'], [], ['b', '\t']]
    (fun ts => by simp [encC8])
